import Mathlib

/-!
Shallow embedding, in Lean 4, of the core of `zookeeper_cli.py`:
the tree renderer (`ZNode.show_tree_node`, `ZNode.__init__`, `cmd_tree`),
the two-phase batch deployer (`check_file`, `read_json_from_file`,
`create_and_set`, `cmd_deploy`), the single-node setter (`cmd_set`),
the health check (`cmd_status`) and the shutdown routine (`tear_down`).

External collaborators are parameters of the embedding:
  * the file system is a partial map from absolute path to file content
    (`fs : String -> Option String`; `none` = unreadable/absent);
  * the JSON library's `dumps(loads s, sort_keys, indent)` round-trip is an
    opaque canonicalizer `jsonCanon : String -> Option String`
    (`none` = `loads` raises `ValueError`);
  * the ZooKeeper service is an existence predicate plus a per-znode
    failure flag (`ZookeeperError` raised during `exists`/`ensure_path`/`set`).

Python `os.path.abspath` normalization of `.` / `..` / duplicate slashes is
not modelled; all concrete inputs below avoid those forms.
-/

namespace ZkCli

/-! ### Character-list string helpers (models of the Python string/path ops) -/

/-- Does the character list `n` lead (start) `h`?  Model of Python `str.startswith`
restricted to what the source uses. -/
def leadsWith : List Char → List Char → Bool
  | [], _ => true
  | _ :: _, [] => false
  | a :: as, b :: bs => a == b && leadsWith as bs

/-- Contiguous-substring test on character lists: model of Python `needle in hay`. -/
def subChars (n : List Char) : List Char → Bool
  | [] => n.isEmpty
  | b :: t => leadsWith n (b :: t) || subChars n t

/-- Model of Python `'x' in s` (substring containment) on `String`. -/
def containsSub (needle hay : String) : Bool :=
  subChars needle.data hay.data

/-- Does the string start with character `c`?  Model of `l.startswith('#')`
and of the absolute-path test `p.startswith('/')` implicit in `os.path`. -/
def startsWithCh (s : String) (c : Char) : Bool :=
  match s.data with
  | [] => false
  | a :: _ => a == c

/-- Model of Python `str.rstrip()` on a character list: drop trailing whitespace. -/
def rstripList (cs : List Char) : List Char :=
  (cs.reverse.dropWhile Char.isWhitespace).reverse

/-- Model of Python `str.rstrip()`. -/
def rstrip (s : String) : String :=
  String.mk (rstripList s.data)

/-- Split a character list at the first occurrence of `sep`; `none` when `sep`
does not occur.  Model of Python `s.split(sep, 1)` (a missing separator makes
the two-target unpacking raise `ValueError`, modelled by `none`). -/
def splitFirstAux (sep : Char) : List Char → Option (List Char × List Char)
  | [] => none
  | a :: as =>
    if a == sep then some ([], as)
    else
      match splitFirstAux sep as with
      | none => none
      | some (l, r) => some (a :: l, r)

/-- Model of `key, path = l.split(':', 1)` (with arbitrary separator). -/
def splitFirst (sep : Char) (s : String) : Option (String × String) :=
  match splitFirstAux sep s.data with
  | none => none
  | some (l, r) => some (String.mk l, String.mk r)

/-- Split a character list on every `/`, like Python `s.split('/')`. -/
def splitSlash (cs : List Char) : List (List Char) :=
  cs.foldr
    (fun a r =>
      if a == '/' then [] :: r
      else
        match r with
        | h :: t => (a :: h) :: t
        | [] => [[a]])
    [[]]

/-- Model of `os.path.basename`: the part after the last `/`. -/
def basename (s : String) : String :=
  String.mk ((splitSlash s.data).getLastD [])

/-- Model of `os.path.dirname`: the part before the last `/`. -/
def dirname (s : String) : String :=
  String.mk (List.intercalate ['/'] (splitSlash s.data).dropLast)

/-- Model of `os.path.abspath` relative to an explicit working directory
`cwd` (Python's hidden state): an absolute path is kept, a relative one is
joined to `cwd`.  (`normpath` collapsing is not modelled.) -/
def abspath (cwd f : String) : String :=
  if startsWithCh f '/' then f else cwd ++ "/" ++ f

/-- Model of Python `s * n` for strings: `n` concatenated copies. -/
def strRepeat (s : String) (n : Nat) : String :=
  String.mk (List.flatten (List.replicate n s.data))

/-! ### Tree renderer: `ZNode.show_tree_node` -/

/-- Direct translation of `ZNode.show_tree_node` (src lines 208–215):
```
if self.level > 1:
    print("{0}{1}{2} {3}".format('    ' * self.level, '└', '─' * self.level, basename(c)))
elif self.level == 1:
    print("  {0} {1}".format('└───', basename(c)))
else:
    print("{0} {1}".format('.', basename(c)))
```
The returned string is the printed line. -/
def show_tree_node (level : Nat) (c : String) : String :=
  if level > 1 then
    strRepeat "    " level ++ "└" ++ strRepeat "─" level ++ " " ++ basename c
  else if level == 1 then
    "  " ++ "└───" ++ " " ++ basename c
  else
    "." ++ " " ++ basename c

/-! ### Tree renderer: `ZNode.__init__` / `cmd_tree`

`zk.get_children` is the only service call of the renderer; its outcome is a
parameter.  `ZNode.__init__` prints the node's line, then enumerates children:
`NoNodeError` is caught (`except NoNodeError: return`), any other exception
propagates and aborts the render.  The model returns the lines printed for the
subtree together with a flag: `true` = the subtree rendered without a fatal
error, `false` = a non-`NoNodeError` exception escaped (output up to that
point stands, nothing later is printed).  A fuel argument bounds the recursion
depth; every claim below is stated for sufficient fuel. -/

/-- Outcome of `zk.get_children(path)` as the renderer sees it. -/
inductive ChildrenRes where
  | ok (cs : List String)
  | noNode
  | err
deriving DecidableEq

/-- Model of the `for c in self.children:` loop of `ZNode.__init__`
(src lines 203–204), parameterized by the renderer `recur` used for each
child subtree: render each child in the order received; a fatal error while
rendering one child stops the loop and propagates. -/
def renderChildren (recur : String → Nat → List String × Bool) (path : String)
    (level : Nat) : List String → List String × Bool
  | [] => ([], true)
  | c :: rest =>
    let sub := recur (path ++ "/" ++ c) (level + 1)
    if sub.2 then
      let r := renderChildren recur path level rest
      (sub.1 ++ r.1, r.2)
    else
      (sub.1, false)

/-- Model of `ZNode.__init__(path, level)` (src lines 197–206): print the
node's own line, then enumerate and recurse.  `NoNodeError` from
`get_children` is caught (leaf); any other service error escapes (flag
`false`).  `fuel` bounds the recursion depth. -/
def renderTree (client : String → ChildrenRes) : Nat → String → Nat →
    List String × Bool
  | 0, _, _ => ([], false)
  | f + 1, path, level =>
    let line := show_tree_node level path
    match client path with
    | .noNode => ([line], true)
    | .err => ([line], false)
    | .ok cs =>
      let r := renderChildren (fun p l => renderTree client f p l) path level cs
      (line :: r.1, r.2)

/-! ### Batch deployer: `check_file`, `cmd_deploy` phase 1 -/

/-- Outcome of the phase-1 validation loop of `cmd_deploy`
(src lines 174–178). -/
inductive P1Out where
  | ok (cwd : String)
  | unreadable (p : String)
  | malformed (l : String)
deriving DecidableEq

/-- Model of `check_file(f)` (src lines 47–55) under explicit working
directory state: `none` when the file is unreadable (the source prints a
message and calls `exit(1)`); otherwise `some (cwd', base)` where
`cwd' = dirname(abspath(f))` is the directory `chdir` moves to and
`base = basename(f)` the returned name. -/
def check_file (fs : String → Option String) (cwd f : String) :
    Option (String × String) :=
  if (fs (abspath cwd f)).isSome then
    some (dirname (abspath cwd f), basename f)
  else
    none

/-- Phase 1 of `cmd_deploy` (src lines 174–178): first pass over the mapping
lines, `check_file` on each non-comment entry's source path.  Returns the list
of absolute paths actually checked, in order, and the outcome (final working
directory on success; abort at the first unreadable source or at the first
line without a `:`). -/
def phase1 (fs : String → Option String) (cwd : String) :
    List String → List String × P1Out
  | [] => ([], .ok cwd)
  | l :: ls =>
    if startsWithCh l '#' then phase1 fs cwd ls
    else
      match splitFirst ':' (rstrip l) with
      | none => ([], .malformed l)
      | some (_, path) =>
        match check_file fs cwd path with
        | none => ([abspath cwd path], .unreadable path)
        | some (cwd', _) =>
          let r := phase1 fs cwd' ls
          (abspath cwd path :: r.1, r.2)

/-! ### Batch deployer: `create_and_set`, `cmd_deploy` phase 2 -/

/-- The ZooKeeper service as `create_and_set` consumes it:
`exists0` = which paths already exist before the deploy, `svcFail` = on which
znodes a service call (`exists`/`ensure_path`/`set`) raises `ZookeeperError`. -/
structure ZkEnv where
  exists0 : String → Bool
  svcFail : String → Bool

/-- A mutation issued to the service: `ensure_path` (path creation) or
`set` (value write). -/
inductive Mut where
  | create (p : String)
  | set (p v : String)
deriving DecidableEq

/-- Model of `create_and_set()` (src lines 136–144) for znode `znode` and
payload `values`: when a `ZookeeperError` is raised for this znode, it is
caught, the error is reported (the znode is recorded in the report list) and
no mutation is recorded; otherwise the node is created if missing
(`ensure_path`) and its value set.  `created` accumulates paths created by
earlier entries of the same deploy (threads `zk.exists` state). -/
def create_and_set (env : ZkEnv) (created : List String) (znode values : String) :
    List Mut × List String × List String :=
  if env.svcFail znode then
    ([], [znode], created)
  else
    let ex := env.exists0 znode || created.contains znode
    ((if ex then [] else [Mut.create znode]) ++ [Mut.set znode values],
     [],
     if ex then created else znode :: created)

/-- Outcome of the phase-2 commit loop of `cmd_deploy` (src lines 179–186). -/
inductive P2Out where
  | done
  | malformed (l : String)
  | openFail (p : String)
  | badJson (p : String)
deriving DecidableEq

/-- Phase 2 of `cmd_deploy` (src lines 179–186): second pass over the same
lines, from the working directory phase 1 ended in (`cwd` is constant here:
phase 2 performs no `chdir`).  Each non-comment entry is opened
(`openFail` models an `IOError` escaping), parsed
(`read_json_from_file` = `rstrip` then `loads`/`dumps`; `badJson` models the
uncaught `ValueError`), and applied with `create_and_set`.  Returns
(mutations issued, znodes with reported service errors, created paths,
outcome); a `malformed`/`openFail`/`badJson` outcome aborts the remainder
of the loop with the results so far. -/
def phase2 (fs jsonCanon : String → Option String) (env : ZkEnv) (cwd : String)
    (created : List String) :
    List String → List Mut × List String × List String × P2Out
  | [] => ([], [], created, .done)
  | l :: ls =>
    if startsWithCh l '#' then phase2 fs jsonCanon env cwd created ls
    else
      match splitFirst ':' (rstrip l) with
      | none => ([], [], created, .malformed l)
      | some (key, path) =>
        match fs (abspath cwd path) with
        | none => ([], [], created, .openFail path)
        | some content =>
          match jsonCanon (rstrip content) with
          | none => ([], [], created, .badJson path)
          | some canon =>
            let e := create_and_set env created key canon
            let r := phase2 fs jsonCanon env cwd e.2.2 ls
            (e.1 ++ r.1, e.2.1 ++ r.2.1, r.2.2)

/-- Overall outcome of `cmd_deploy`. -/
inductive DeployOut where
  | p1Unreadable (p : String)
  | p1Malformed (l : String)
  | p2 (out : P2Out)
deriving DecidableEq

/-- Model of `cmd_deploy()` (src lines 168–186): phase 1 over all lines (an
abort there — `exit(1)` from `check_file`, or the `ValueError` of a
separator-less line — means phase 2 never runs and nothing is mutated), then
phase 2 from the working directory phase 1 ended in.  `cwd0` is the mapping
file's own directory: the `--input` argument went through `check_file`, which
`chdir`ed there.  Returns (mutations, reported-error znodes, outcome). -/
def cmd_deploy (fs jsonCanon : String → Option String) (env : ZkEnv)
    (cwd0 : String) (lines : List String) :
    List Mut × List String × DeployOut :=
  match (phase1 fs cwd0 lines).2 with
  | .unreadable p => ([], [], .p1Unreadable p)
  | .malformed l => ([], [], .p1Malformed l)
  | .ok cwd2 =>
    let r := phase2 fs jsonCanon env cwd2 [] lines
    (r.1, r.2.1, .p2 r.2.2.2)

/-! ### `cmd_status` and `tear_down` -/

/-- How the process exits on a given path: through a bare `exit(code)` call,
or through `tear_down(code)` (which closes the ZooKeeper connection first). -/
inductive ExitVia where
  | plainExit
  | tearDown
deriving DecidableEq

/-- Model of `cmd_status()` (src lines 101–109): `ret = zk.command('ruok')`;
`if 'imok' in ret` (substring containment!) print `OK` and `exit(0)`, else
print the warning and `exit(1)`.  Both branches call `exit`, not `tear_down`.
Returns (printed message, exit code, which exit routine ran). -/
def cmd_status (ret : String) : String × Nat × ExitVia :=
  if containsSub "imok" ret then
    ("OK", 0, .plainExit)
  else
    ("WARN - Server replied : " ++ ret, 1, .plainExit)

/-- Model of `tear_down(code)` (src lines 71–79): `zk.stop(); zk.close()` are
invoked only when the global `zk` exists and is connected.  Arguments: does
the global `zk` exist, is it connected.  Returns whether `stop`/`close` were
invoked; the function is total — it never fails, whatever the state. -/
def tear_down (zkDefined connected : Bool) : Bool :=
  if zkDefined then (if connected then true else false) else false

/-! ### `cmd_set` and `create_and_set`'s argument access -/

/-- The mutable `args` namespace object as the `set` path uses it.
`values` is `--values` after `check_json` canonicalization (argparse `type=`),
`input` is `--input` after `check_file` (so a basename, with the working
directory moved to its directory), `value` models the attribute that
`cmd_set` creates with `args.value = read_json_from_file(f)` — a distinct
attribute from `values`, absent until that assignment runs. -/
structure Args where
  znode : Option String
  values : Option String
  input : Option String
  value : Option String
deriving DecidableEq

/-- The payload `create_and_set()` passes to `zk.set(args.znode, args.values)`
(src line 141): it reads the `values` attribute, never `value`. -/
def create_and_set_payload (args : Args) : Option String :=
  args.values

/-- Outcome of `cmd_set()`. -/
inductive SetOut where
  /-- neither `--input` nor `--values`: message + `tear_down(1)`. -/
  | exitNoOpts
  /-- no `--znode`: message + `tear_down(1)`. -/
  | exitNoZnode
  /-- `open(args.input)` raised. -/
  | openCrash
  /-- `loads` raised `ValueError` inside `read_json_from_file`. -/
  | jsonCrash
  /-- `create_and_set()` ran: final `args`, and the payload passed to
  `zk.set` for `args.znode`. -/
  | setCall (args : Args) (znode : String) (payload : Option String)
deriving DecidableEq

/-- Model of `cmd_set()` (src lines 152–165): option checks, then
`args.value = read_json_from_file(f)` when `--input` was given (note the
attribute name: `value`, not `values`), then `create_and_set()`. -/
def cmd_set (fs jsonCanon : String → Option String) (cwd : String)
    (args : Args) : SetOut :=
  if args.input = none ∧ args.values = none then .exitNoOpts
  else
    match args.znode with
    | none => .exitNoZnode
    | some z =>
      match args.input with
      | none => .setCall args z (create_and_set_payload args)
      | some inp =>
        match fs (abspath cwd inp) with
        | none => .openCrash
        | some content =>
          match jsonCanon (rstrip content) with
          | none => .jsonCrash
          | some canon =>
            let args' := { args with value := some canon }
            .setCall args' z (create_and_set_payload args')


/-! ## Helper lemmas -/

theorem strExt {a b : String} (h : a.data = b.data) : a = b := by
  cases a
  cases b
  simp_all

theorem strLength_append (a b : String) : (a ++ b).length = a.length + b.length := by
  show (a ++ b).data.length = a.data.length + b.data.length
  rw [String.data_append, List.length_append]

theorem mk_length (l : List Char) : (String.mk l).length = l.length := rfl

theorem flatten_replicate_singleton (a : Char) :
    ∀ n, List.flatten (List.replicate n [a]) = List.replicate n a
  | 0 => rfl
  | n + 1 => by
    simp only [List.replicate_succ, List.flatten_cons,
      flatten_replicate_singleton a n, List.singleton_append]

/-! ## C4: exact render formatting -/

/-- Modelled from the spec (claim C4) for a depth `d ≥ 2` line: 4 spaces
repeated `d` times, followed by a tree-branch glyph `g` repeated `d` times,
followed by one space and the name. -/
def claimDeepLine (g : Char) (d : Nat) (name : String) : String :=
  strRepeat "    " d ++ String.mk (List.replicate d g) ++ " " ++ name

/-- The format the code actually emits at depth `d ≥ 2`: 4 spaces repeated
`d` times, the corner glyph `└` once, the branch glyph `─` repeated `d`
times, one space, then the name. -/
def cornerDeepLine (d : Nat) (name : String) : String :=
  strRepeat "    " d ++ "└" ++ String.mk (List.replicate d '─') ++ " " ++ name

/-- C4 (counterexample): the claim that a depth-`d` line (`d ≥ 2`) is 4·`d`
spaces followed by a single tree-branch glyph repeated `d` times and a space
and the name is false at depth 2 for node `/a/b/c`: the emitted line
`"        └── c"` has 13 characters, while the claimed shape has 12 for every
choice of glyph — the code emits `└` once *and then* `─` repeated `d` times. -/
theorem show_tree_node_depth2_format_cex :
    ¬ ∃ g : Char, show_tree_node 2 "/a/b/c" = claimDeepLine g 2 "c" := by
  rintro ⟨g, h⟩
  have hlen := congrArg String.length h
  have h13 : (show_tree_node 2 "/a/b/c").length = 13 := by decide
  have h12 : (claimDeepLine g 2 "c").length = 12 := by
    have e1 : (strRepeat "    " 2).length = 8 := by decide
    have e2 : (String.mk (List.replicate 2 g)).length = 2 := by
      rw [mk_length, List.length_replicate]
    have e3 : (" " : String).length = 1 := by decide
    have e4 : ("c" : String).length = 1 := by decide
    simp [claimDeepLine, strLength_append, e1, e2, e3, e4]
  rw [h13, h12] at hlen
  exact absurd hlen (by decide)

/-- C4 (amended): for every visited node the emitted line is exactly
`". <name>"` at depth 0, `"  └─── <name>"` at depth 1, and at every depth
`d ≥ 2` exactly 4 spaces repeated `d` times, followed by the corner glyph
`└` once, the branch glyph `─` repeated `d` times, one space and `<name>`,
where `<name>` is the last path segment. -/
theorem show_tree_node_exact_format (p : String) (d : Nat) (hd : 2 ≤ d) :
    show_tree_node 0 p = "." ++ " " ++ basename p ∧
    show_tree_node 1 p = "  └─── " ++ basename p ∧
    show_tree_node d p = cornerDeepLine d (basename p) := by
  refine ⟨rfl, ?_, ?_⟩
  · show "  " ++ "└───" ++ " " ++ basename p = "  └─── " ++ basename p
    have h : ("  " ++ "└───" ++ " " : String) = "  └─── " := by decide
    exact congrArg (fun s => s ++ basename p) h
  · have hgt : d > 1 := by omega
    have h2 : strRepeat "─" d = String.mk (List.replicate d '─') := by
      unfold strRepeat
      exact congrArg String.mk (flatten_replicate_singleton '─' d)
    simp only [show_tree_node, cornerDeepLine, if_pos hgt, h2]

/-- Witness for C4's amended theorem at depth 2 and node `/a/b/c`. -/
theorem show_tree_node_exact_format_witness :
    2 ≤ 2 ∧
    (show_tree_node 0 "/a/b/c" = "." ++ " " ++ basename "/a/b/c" ∧
     show_tree_node 1 "/a/b/c" = "  └─── " ++ basename "/a/b/c" ∧
     show_tree_node 2 "/a/b/c" = cornerDeepLine 2 (basename "/a/b/c")) :=
  ⟨by decide, show_tree_node_exact_format "/a/b/c" 2 (by decide)⟩

/-! ## C5: render failure semantics -/

/-- Two child-enumeration oracles that agree everywhere, except that where
one reports `NoNodeError` the other may report an empty child list: the
relation under which the render must behave identically if `NoNodeError` is
really "treated as no children". -/
def clientLike (c₁ c₂ : String → ChildrenRes) : Prop :=
  ∀ q, c₁ q = c₂ q ∨ (c₁ q = .noNode ∧ c₂ q = .ok []) ∨
    (c₁ q = .ok [] ∧ c₂ q = .noNode)

theorem renderChildren_congr {r₁ r₂ : String → Nat → List String × Bool}
    (h : ∀ p l, r₁ p l = r₂ p l) (path : String) (level : Nat) :
    ∀ cs, renderChildren r₁ path level cs = renderChildren r₂ path level cs := by
  intro cs
  induction cs with
  | nil => rfl
  | cons c rest ih => simp only [renderChildren, h, ih]

theorem renderTree_clientLike {c₁ c₂ : String → ChildrenRes}
    (h : clientLike c₁ c₂) :
    ∀ fuel path level, renderTree c₁ fuel path level = renderTree c₂ fuel path level := by
  intro fuel
  induction fuel with
  | zero => intro path level; rfl
  | succ f ih =>
    intro path level
    simp only [renderTree]
    rcases h path with hq | ⟨h1, h2⟩ | ⟨h1, h2⟩
    · rw [hq]
      cases c₂ path with
      | ok cs =>
        have hc := @renderChildren_congr (fun p l => renderTree c₁ f p l)
          (fun p l => renderTree c₂ f p l) (fun p l => ih p l) path level cs
        exact congrArg
          (fun r : List String × Bool => (show_tree_node level path :: r.1, r.2)) hc
      | noNode => rfl
      | err => rfl
    · rw [h1, h2]
      simp [renderChildren]
    · rw [h1, h2]
      simp [renderChildren]

/-- C5: during the tree render a `NoNodeError` while enumerating a node's
children is swallowed — the render is the same as if that node had no
children, so the pre-order traversal continues without error (first
conjunct, for every pair of oracles related by `clientLike`); whereas any
other service error is fatal: it ends that node's render with the failure
flag set (second conjunct), and a failed child subtree aborts the whole
render — the parent stops after that child's lines and propagates the
failure, rendering no further sibling (third conjunct). -/
theorem render_failure_semantics :
    (∀ c₁ c₂ : String → ChildrenRes, clientLike c₁ c₂ →
       ∀ fuel path level,
         renderTree c₁ fuel path level = renderTree c₂ fuel path level) ∧
    (∀ (client : String → ChildrenRes) (fuel : Nat) (path : String) (level : Nat),
       client path = .err →
       renderTree client (fuel + 1) path level = ([show_tree_node level path], false)) ∧
    (∀ (client : String → ChildrenRes) (fuel : Nat) (path : String) (level : Nat)
       (c : String) (cs : List String),
       client path = .ok (c :: cs) →
       (renderTree client fuel (path ++ "/" ++ c) (level + 1)).2 = false →
       renderTree client (fuel + 1) path level =
         (show_tree_node level path ::
            (renderTree client fuel (path ++ "/" ++ c) (level + 1)).1,
          false)) := by
  refine ⟨fun c₁ c₂ h => renderTree_clientLike h, ?_, ?_⟩
  · intro client fuel path level herr
    simp [renderTree, herr]
  · intro client fuel path level c cs hok hsub
    simp [renderTree, hok, renderChildren, hsub]

/-- A namespace where `/r` has children `x, y` and everything else is a leaf. -/
def baseClient : String → ChildrenRes := fun p =>
  if p = "/r" then .ok ["x", "y"] else .ok []

/-- `baseClient`, except `/r/x` vanished between listing and visiting. -/
def clientGone : String → ChildrenRes := fun p =>
  if p = "/r/x" then .noNode else baseClient p

/-- `baseClient`, except `/r/x` reports no children. -/
def clientEmptyX : String → ChildrenRes := fun p =>
  if p = "/r/x" then .ok [] else baseClient p

/-- A namespace whose child `/a/b` fails child enumeration fatally. -/
def clientErrB : String → ChildrenRes := fun p =>
  if p = "/a" then .ok ["b", "c"]
  else if p = "/a/b" then .err
  else .ok []

theorem clientLike_gone_empty : clientLike clientGone clientEmptyX := by
  intro q
  by_cases hq : q = "/r/x"
  · right; left
    exact ⟨by simp [clientGone, hq], by simp [clientEmptyX, hq]⟩
  · left
    simp [clientGone, clientEmptyX, hq]

/-- Witness for C5: a concrete deleted-mid-render node renders like a leaf
and the traversal continues (first conjunct), a fatal child enumeration
error stops a node (second conjunct) and aborts the whole render at the
parent, skipping sibling `c` (third conjunct). -/
theorem render_failure_semantics_witness :
    renderTree clientGone 3 "/r" 0 = renderTree clientEmptyX 3 "/r" 0 ∧
    renderTree clientErrB 1 "/a/b" 1 = ([show_tree_node 1 "/a/b"], false) ∧
    renderTree clientErrB 2 "/a" 0 =
      ([show_tree_node 0 "/a", show_tree_node 1 "/a/b"], false) := by
  refine ⟨?_, ?_, ?_⟩
  · exact render_failure_semantics.1 clientGone clientEmptyX clientLike_gone_empty 3 "/r" 0
  · exact render_failure_semantics.2.1 clientErrB 0 "/a/b" 1 (by decide)
  · have h := render_failure_semantics.2.2 clientErrB 1 "/a" 0 "b" ["c"]
      (by decide) (by decide)
    exact h.trans (by decide)

/-! ## Phase-1 lemmas (deploy validation pass) -/

/-- Composition of the phase-1 loop: a prefix that validates fully continues
into the rest from the working directory it ended in. -/
theorem phase1_append_ok {fs : String → Option String} :
    ∀ {ls₁ : List String} {cwd : String} {v₁ : List String} {cwd₁ : String},
      phase1 fs cwd ls₁ = (v₁, .ok cwd₁) → ∀ ls₂ : List String,
      phase1 fs cwd (ls₁ ++ ls₂) =
        (v₁ ++ (phase1 fs cwd₁ ls₂).1, (phase1 fs cwd₁ ls₂).2) := by
  intro ls₁
  induction ls₁ with
  | nil =>
    intro cwd v₁ cwd₁ h ls₂
    simp only [phase1] at h
    obtain ⟨hv, hc⟩ := Prod.mk.injEq .. ▸ h
    cases hc
    cases hv
    simp [phase1]
  | cons l ls ih =>
    intro cwd v₁ cwd₁ h ls₂
    rw [List.cons_append]
    have hb : startsWithCh l '#' = true ∨ startsWithCh l '#' = false := by
      cases startsWithCh l '#'
      · right; rfl
      · left; rfl
    rcases hb with hcom | hcom
    · simp only [phase1, hcom, if_true] at h ⊢
      exact ih h ls₂
    · simp only [phase1, hcom, Bool.false_eq_true, if_false] at h ⊢
      cases hsp : splitFirst ':' (rstrip l) with
      | none =>
        simp only [hsp] at h
        exact absurd (congrArg Prod.snd h) (by simp)
      | some kp =>
        cases hcf : check_file fs cwd kp.2 with
        | none =>
          simp only [hsp, hcf] at h
          exact absurd (congrArg Prod.snd h) (by simp)
        | some s =>
          simp only [hsp, hcf] at h ⊢
          have h2 := congrArg Prod.fst h
          have h3 := congrArg Prod.snd h
          simp only at h2 h3
          have h5 : phase1 fs s.1 ls = ((phase1 fs s.1 ls).1, .ok cwd₁) := by
            rw [← h3]
          have h4 := ih h5 ls₂
          rw [h4, ← h2]
          simp

/-- The phase-1 loop visits the entries in order and stops at the first
entry whose source file is unreadable where the loop checks it: every
earlier entry is checked, nothing after it is. -/
theorem phase1_first_unreadable {fs : String → Option String}
    {ls₁ : List String} {cwd : String} {v₁ : List String} {cwd₁ : String}
    (h1 : phase1 fs cwd ls₁ = (v₁, .ok cwd₁))
    {l key path : String}
    (hc : startsWithCh l '#' = false)
    (hsp : splitFirst ':' (rstrip l) = some (key, path))
    (hun : fs (abspath cwd₁ path) = none) (ls₂ : List String) :
    phase1 fs cwd (ls₁ ++ l :: ls₂) = (v₁ ++ [abspath cwd₁ path], .unreadable path) := by
  rw [phase1_append_ok h1 (l :: ls₂)]
  have hstep : phase1 fs cwd₁ (l :: ls₂) = ([abspath cwd₁ path], .unreadable path) := by
    simp [phase1, hc, hsp, check_file, hun]
  rw [hstep]

/-! ## C1: phase-1 validation failure blocks all mutation -/

/-- C1: for a mapping file in which some non-comment entry's source file is
unreadable where the validation pass checks it (the entries before it all
validating), the deploy performs no mutation at all: no `create_path` and no
`set_value` is issued for any entry — earlier entries included — and no
service error is ever reported, because phase 2 never runs. -/
theorem deploy_unreadable_blocks_all_mutation
    (fs jsonCanon : String → Option String) (env : ZkEnv)
    (cwd0 : String) (ls₁ : List String) (l : String) (ls₂ : List String)
    (v₁ : List String) (cwd₁ key path : String)
    (h1 : phase1 fs cwd0 ls₁ = (v₁, .ok cwd₁))
    (hc : startsWithCh l '#' = false)
    (hsp : splitFirst ':' (rstrip l) = some (key, path))
    (hun : fs (abspath cwd₁ path) = none) :
    cmd_deploy fs jsonCanon env cwd0 (ls₁ ++ l :: ls₂) =
      ([], [], .p1Unreadable path) := by
  have h := phase1_first_unreadable h1 hc hsp hun ls₂
  simp [cmd_deploy, h]

/-- Canonicalizer fixture: faithful to `json.dumps(json.loads s, sort_keys=True,
indent=4, separators=(',', ': '))` on the strings the fixtures use — `"{}"`
is valid JSON and canonicalizes to itself, `"nope"` makes `loads` raise. -/
def jsonC : String → Option String := fun s =>
  if s = "{}" then some "{}" else none

/-- Service fixture: empty namespace, no service failures. -/
def envNF : ZkEnv := ⟨fun _ => false, fun _ => false⟩

/-- File-system fixture for C1: the mapping directory `/m` holds `a` but
`b` is missing. -/
def fsC1 : String → Option String := fun p =>
  if p = "/m/a" then some "{}" else none

/-- Witness for C1: mapping `/k1:a`, `/k2:b`, `/k3:c` under `/m` with `b`
unreadable — nothing at all is mutated, `/k1` included. -/
theorem deploy_unreadable_blocks_all_mutation_witness :
    cmd_deploy fsC1 jsonC envNF "/m" (["/k1:a"] ++ "/k2:b" :: ["/k3:c"]) =
      ([], [], .p1Unreadable "b") :=
  deploy_unreadable_blocks_all_mutation fsC1 jsonC envNF "/m" ["/k1:a"] "/k2:b"
    ["/k3:c"] ["/m/a"] "/m" "/k2" "b" (by decide) (by decide) (by decide) (by decide)

/-! ## C3: which entries the phase-1 scan visits -/

/-- File-system fixture for C3: under `/m`, `b` exists but `a` does not. -/
def fsC3 : String → Option String := fun p =>
  if p = "/m/b" then some "{}" else none

/-- Mapping fixture for C3: two non-comment entries, the first unreadable. -/
def linesC3 : List String := ["/k1:a", "/k2:b"]

/-- C3 (counterexample): the claim that the phase-1 loop visits every
non-comment entry before aborting is false: with entry 1 of 2 unreadable,
the loop checks exactly one source path (not two) and aborts at it —
`check_file` calls `exit(1)` immediately. -/
theorem phase1_stops_at_first_unreadable_cex :
    (phase1 fsC3 "/m" linesC3).1.length = 1 ∧
    (linesC3.filter (fun l => !startsWithCh l '#')).length = 2 ∧
    (phase1 fsC3 "/m" linesC3).2 = P1Out.unreadable "a" := by
  decide

/-- C3 (amended): the phase-1 loop visits the non-comment entries in order
only up to and including the first one whose source is unreadable at its
check, aborting there: every entry before it is checked, the unreadable one
is checked (and so reported even when it is not on the first line), and no
entry after it is visited. -/
theorem phase1_visits_up_to_first_unreadable
    (fs : String → Option String) (cwd : String) (ls₁ : List String)
    (l : String) (ls₂ : List String) (v₁ : List String) (cwd₁ key path : String)
    (h1 : phase1 fs cwd ls₁ = (v₁, .ok cwd₁))
    (hc : startsWithCh l '#' = false)
    (hsp : splitFirst ':' (rstrip l) = some (key, path))
    (hun : fs (abspath cwd₁ path) = none) :
    phase1 fs cwd (ls₁ ++ l :: ls₂) = (v₁ ++ [abspath cwd₁ path], .unreadable path) :=
  phase1_first_unreadable h1 hc hsp hun ls₂

/-- Witness for C3's amended theorem: with `a` readable and `b` not, the
scan of `/k1:a`, `/k2:b`, `/k3:c` checks `/m/a` then `/m/b` and stops. -/
theorem phase1_visits_up_to_first_unreadable_witness :
    phase1 fsC1 "/m" (["/k1:a"] ++ "/k2:b" :: ["/k3:c"]) =
      (["/m/a"] ++ ["/m/b"], .unreadable "b") :=
  phase1_visits_up_to_first_unreadable fsC1 "/m" ["/k1:a"] "/k2:b" ["/k3:c"]
    ["/m/a"] "/m" "/k2" "b" (by decide) (by decide) (by decide) (by decide)

/-! ## C9: source-path resolution -/

/-- File-system fixture for C9: `/m/sub/a` and `/m/sub/b` exist; `/m/b`
does not. -/
def fsC9 : String → Option String := fun p =>
  if p = "/m/sub/a" then some "{}" else if p = "/m/sub/b" then some "{}" else none

/-- Mapping fixture for C9 (mapping file lives in `/m`): the first entry's
source sits in a subdirectory, the second is a bare name. -/
def linesC9 : List String := ["/k1:sub/a", "/k2:b"]

/-- C9 (counterexample): the claim that a relative `source_reference` is
resolved relative to the mapping file's own directory, independently of the
preceding entries, is false: entry 2's source `b` would then resolve to
`/m/b`, which is unreadable — yet validation passes, because after checking
entry 1 `check_file` changed directory to `/m/sub` and entry 2 is checked at
`/m/sub/b`. -/
theorem source_resolution_depends_on_preceding_cex :
    (phase1 fsC9 "/m" linesC9).1 = ["/m/sub/a", "/m/sub/b"] ∧
    (phase1 fsC9 "/m" linesC9).2 = P1Out.ok "/m/sub" ∧
    abspath "/m" "b" = "/m/b" ∧
    fsC9 "/m/b" = none := by
  decide

/-- Modelled from the amended claim: the absolute path at which each entry's
source is checked, obtained by resolving against a working directory that
starts at the mapping file's directory and moves to the directory of each
checked file. -/
def resolveChain (cwd : String) : List String → List String
  | [] => []
  | p :: ps => abspath cwd p :: resolveChain (dirname (abspath cwd p)) ps

/-- The `source_reference` of every non-comment entry of a mapping, in order. -/
def sourcesOf (lines : List String) : List String :=
  lines.filterMap fun l =>
    if startsWithCh l '#' then none
    else (splitFirst ':' (rstrip l)).map fun kp => kp.2

/-- C9 (amended): an absolute `source_reference` is used as-is, but a
relative one is resolved against the current working directory, which starts
at the mapping file's directory and is moved by `check_file` to each checked
file's directory — so the resolution of an entry depends on the entries that
precede it.  Concretely, when phase 1 succeeds, the sequence of checked
absolute paths equals the chained resolution of the non-comment entries'
sources. -/
theorem source_resolution_chained_cwd
    (fs : String → Option String) (lines : List String)
    (cwd cwd' : String) (v : List String)
    (h : phase1 fs cwd lines = (v, .ok cwd')) :
    v = resolveChain cwd (sourcesOf lines) ∧
    ∀ c p : String, startsWithCh p '/' = true → abspath c p = p := by
  constructor
  · induction lines generalizing cwd v with
    | nil =>
      have hv := congrArg Prod.fst h
      simp only [phase1] at hv
      rw [← hv]
      rfl
    | cons l ls ih =>
      have hb : startsWithCh l '#' = true ∨ startsWithCh l '#' = false := by
        cases startsWithCh l '#'
        · right; rfl
        · left; rfl
      rcases hb with hcom | hcom
      · simp only [phase1, hcom, if_true] at h
        simp only [sourcesOf, List.filterMap_cons, hcom, if_true]
        exact ih cwd v h
      · simp only [phase1, hcom, Bool.false_eq_true, if_false] at h
        cases hsp : splitFirst ':' (rstrip l) with
        | none =>
          simp only [hsp] at h
          exact absurd (congrArg Prod.snd h) (by simp)
        | some kp =>
          cases hcf : check_file fs cwd kp.2 with
          | none =>
            simp only [hsp, hcf] at h
            exact absurd (congrArg Prod.snd h) (by simp)
          | some s =>
            simp only [hsp, hcf] at h
            have h2 := congrArg Prod.fst h
            have h3 := congrArg Prod.snd h
            simp only at h2 h3
            have hs1 : s.1 = dirname (abspath cwd kp.2) := by
              simp only [check_file] at hcf
              rcases hif : (fs (abspath cwd kp.2)).isSome with _ | _
              · rw [hif] at hcf
                simp at hcf
              · rw [hif] at hcf
                simp only [if_true] at hcf
                have := congrArg Prod.fst ((Option.some.injEq ..).mp hcf.symm)
                simp only at this
                rw [← this]
            have h5 : phase1 fs s.1 ls = ((phase1 fs s.1 ls).1, .ok cwd') := by
              rw [← h3]
            have h6 := ih s.1 (phase1 fs s.1 ls).1 h5
            simp only [sourcesOf, List.filterMap_cons, hcom, Bool.false_eq_true,
              if_false, hsp, Option.map_some, resolveChain]
            rw [← h2]
            simp only [sourcesOf] at h6
            rw [h6, hs1]
  · intro c p hp
    simp [abspath, hp]

/-- Witness for C9's amended theorem on the C9 fixture: the checked paths
are the chained resolution (entry 2 checked at `/m/sub/b`, not `/m/b`), and
an absolute source is used as-is. -/
theorem source_resolution_chained_cwd_witness :
    (["/m/sub/a", "/m/sub/b"] : List String) =
      resolveChain "/m" (sourcesOf linesC9) ∧
    abspath "/anywhere" "/abs/file" = "/abs/file" :=
  ⟨(source_resolution_chained_cwd fsC9 linesC9 "/m" "/m/sub"
      ["/m/sub/a", "/m/sub/b"] (by decide)).1,
   (source_resolution_chained_cwd fsC9 linesC9 "/m" "/m/sub"
      ["/m/sub/a", "/m/sub/b"] (by decide)).2 "/anywhere" "/abs/file" (by decide)⟩

/-! ## Phase-2 lemmas (deploy commit pass) -/

/-- Composition of the phase-2 loop: a prefix that commits fully (outcome
`done`) continues into the rest from the created-paths state it ended in. -/
theorem phase2_append_done {fs jsonCanon : String → Option String} {env : ZkEnv}
    {cwd : String} :
    ∀ {ls₁ : List String} {created : List String} {m₁ : List Mut}
      {e₁ c₁ : List String},
      phase2 fs jsonCanon env cwd created ls₁ = (m₁, e₁, c₁, .done) →
      ∀ ls₂ : List String,
      phase2 fs jsonCanon env cwd created (ls₁ ++ ls₂) =
        (m₁ ++ (phase2 fs jsonCanon env cwd c₁ ls₂).1,
         e₁ ++ (phase2 fs jsonCanon env cwd c₁ ls₂).2.1,
         (phase2 fs jsonCanon env cwd c₁ ls₂).2.2) := by
  intro ls₁
  induction ls₁ with
  | nil =>
    intro created m₁ e₁ c₁ h ls₂
    simp only [phase2] at h
    have hm := congrArg (fun t : List Mut × List String × List String × P2Out => t.1) h
    have he := congrArg (fun t : List Mut × List String × List String × P2Out => t.2.1) h
    have hc := congrArg (fun t : List Mut × List String × List String × P2Out => t.2.2.1) h
    simp only at hm he hc
    rw [← hm, ← he, ← hc]
    simp [List.nil_append]
  | cons l ls ih =>
    intro created m₁ e₁ c₁ h ls₂
    rw [List.cons_append]
    have hb : startsWithCh l '#' = true ∨ startsWithCh l '#' = false := by
      cases startsWithCh l '#'
      · right; rfl
      · left; rfl
    rcases hb with hcom | hcom
    · simp only [phase2, hcom, if_true] at h ⊢
      exact ih h ls₂
    · simp only [phase2, hcom, Bool.false_eq_true, if_false] at h ⊢
      cases hsp : splitFirst ':' (rstrip l) with
      | none =>
        simp only [hsp] at h
        exact absurd
          (congrArg (fun t : List Mut × List String × List String × P2Out => t.2.2.2) h)
          (by simp)
      | some kp =>
        cases hrd : fs (abspath cwd kp.2) with
        | none =>
          simp only [hsp, hrd] at h
          exact absurd
            (congrArg (fun t : List Mut × List String × List String × P2Out => t.2.2.2) h)
            (by simp)
        | some content =>
          cases hjs : jsonCanon (rstrip content) with
          | none =>
            simp only [hsp, hrd, hjs] at h
            exact absurd
              (congrArg (fun t : List Mut × List String × List String × P2Out => t.2.2.2) h)
              (by simp)
          | some canon =>
            simp only [hsp, hrd, hjs] at h ⊢
            have hm := congrArg
              (fun t : List Mut × List String × List String × P2Out => t.1) h
            have he := congrArg
              (fun t : List Mut × List String × List String × P2Out => t.2.1) h
            have hr := congrArg
              (fun t : List Mut × List String × List String × P2Out => t.2.2) h
            simp only at hm he hr
            have h5 : phase2 fs jsonCanon env cwd
                (create_and_set env created kp.1 canon).2.2 ls =
                ((phase2 fs jsonCanon env cwd
                   (create_and_set env created kp.1 canon).2.2 ls).1,
                 (phase2 fs jsonCanon env cwd
                   (create_and_set env created kp.1 canon).2.2 ls).2.1,
                 c₁, .done) := by
              rw [← hr]
            have h4 := ih h5 ls₂
            rw [h4, ← hm, ← he]
            simp

/-! ## C2: invalid JSON payload in phase 2 -/

/-- File-system fixture for C2: entry 1's payload `a` is not JSON, entry
2's payload `b` is. -/
def fsC2 : String → Option String := fun p =>
  if p = "/m/a" then some "nope" else if p = "/m/b" then some "{}" else none

/-- Mapping fixture for C2. -/
def linesC2 : List String := ["/k1:a", "/k2:b"]

/-- C2 (counterexample): the claim that an invalid-JSON payload is fatal
only for its own entry — reported, skipped, every subsequent entry still
applied — is false: with entry 1's payload invalid and entry 2's valid, the
deploy aborts at entry 1 with the parse failure and applies nothing, while
entry 2 alone would have deployed. -/
theorem deploy_badJson_aborts_batch_cex :
    cmd_deploy fsC2 jsonC envNF "/m" linesC2 = ([], [], .p2 (.badJson "a")) ∧
    cmd_deploy fsC2 jsonC envNF "/m" ["/k2:b"] =
      ([Mut.create "/k2", Mut.set "/k2" "{}"], [], .p2 .done) := by
  decide

/-- C2 (amended): a payload that is not valid JSON is fatal for the whole
remainder of the deploy, not just its own entry: the uncaught parse failure
aborts the commit loop at that entry — entries already committed stay
committed (their mutations and reports stand), and no later entry is
processed. -/
theorem deploy_badJson_fatal_whole_batch
    (fs jsonCanon : String → Option String) (env : ZkEnv) (cwd : String)
    (created : List String) (ls₁ : List String) (l : String) (ls₂ : List String)
    (m₁ : List Mut) (e₁ c₁ : List String) (key path content : String)
    (h1 : phase2 fs jsonCanon env cwd created ls₁ = (m₁, e₁, c₁, .done))
    (hc : startsWithCh l '#' = false)
    (hsp : splitFirst ':' (rstrip l) = some (key, path))
    (hrd : fs (abspath cwd path) = some content)
    (hjs : jsonCanon (rstrip content) = none) :
    phase2 fs jsonCanon env cwd created (ls₁ ++ l :: ls₂) =
      (m₁, e₁, c₁, .badJson path) := by
  rw [phase2_append_done h1 (l :: ls₂)]
  have hstep : phase2 fs jsonCanon env cwd c₁ (l :: ls₂) =
      ([], [], c₁, .badJson path) := by
    simp [phase2, hc, hsp, hrd, hjs]
  rw [hstep]
  simp

/-- Witness for C2's amended theorem: entry 1 (`b`, valid) commits, entry 2
(`a`, invalid JSON) aborts the loop, entry 3 is never processed. -/
theorem deploy_badJson_fatal_whole_batch_witness :
    phase2 fsC2 jsonC envNF "/m" [] (["/k2:b"] ++ "/k1:a" :: ["/k3:b"]) =
      ([Mut.create "/k2", Mut.set "/k2" "{}"], [], ["/k2"], .badJson "a") :=
  deploy_badJson_fatal_whole_batch fsC2 jsonC envNF "/m" [] ["/k2:b"] "/k1:a"
    ["/k3:b"] [Mut.create "/k2", Mut.set "/k2" "{}"] [] ["/k2"] "/k1" "a" "nope"
    (by decide) (by decide) (by decide) (by decide) (by decide)

/-! ## C6: phase-2 service-error isolation -/

/-- C6: when the service raises a `ZookeeperError` while creating or setting
one entry's node during the commit pass, that entry is reported (its znode
recorded, no mutation for it) and the loop continues: the entries before it
keep their mutations and reports, and the entries after it are processed
exactly as they would be from the same state — one entry's service failure
does not abort the batch. -/
theorem deploy_service_error_isolated
    (fs jsonCanon : String → Option String) (env : ZkEnv) (cwd : String)
    (created : List String) (ls₁ : List String) (l : String) (ls₂ : List String)
    (m₁ : List Mut) (e₁ c₁ : List String) (key path content canon : String)
    (h1 : phase2 fs jsonCanon env cwd created ls₁ = (m₁, e₁, c₁, .done))
    (hc : startsWithCh l '#' = false)
    (hsp : splitFirst ':' (rstrip l) = some (key, path))
    (hrd : fs (abspath cwd path) = some content)
    (hjs : jsonCanon (rstrip content) = some canon)
    (hfail : env.svcFail key = true) :
    phase2 fs jsonCanon env cwd created (ls₁ ++ l :: ls₂) =
      (m₁ ++ (phase2 fs jsonCanon env cwd c₁ ls₂).1,
       e₁ ++ key :: (phase2 fs jsonCanon env cwd c₁ ls₂).2.1,
       (phase2 fs jsonCanon env cwd c₁ ls₂).2.2) := by
  rw [phase2_append_done h1 (l :: ls₂)]
  have hstep : phase2 fs jsonCanon env cwd c₁ (l :: ls₂) =
      ((phase2 fs jsonCanon env cwd c₁ ls₂).1,
       key :: (phase2 fs jsonCanon env cwd c₁ ls₂).2.1,
       (phase2 fs jsonCanon env cwd c₁ ls₂).2.2) := by
    simp [phase2, hc, hsp, hrd, hjs, create_and_set, hfail]
  rw [hstep]

/-- Service fixture for C6: empty namespace; the service rejects writes to
`/k2` only. -/
def envFailK2 : ZkEnv := ⟨fun _ => false, fun z => z = "/k2"⟩

/-- File-system fixture for C6: all three payloads readable and valid. -/
def fsC6 : String → Option String := fun p =>
  if p = "/m/a" then some "{}" else none

/-- Witness for C6: of `/k1,/k2,/k3`, the service rejects `/k2`; `/k1` and
`/k3` are both applied and `/k2` is reported. -/
theorem deploy_service_error_isolated_witness :
    phase2 fsC6 jsonC envFailK2 "/m" [] (["/k1:a"] ++ "/k2:a" :: ["/k3:a"]) =
      ([Mut.create "/k1", Mut.set "/k1" "{}", Mut.create "/k3", Mut.set "/k3" "{}"],
       ["/k2"], ["/k3", "/k1"], .done) := by
  have h := deploy_service_error_isolated fsC6 jsonC envFailK2 "/m" [] ["/k1:a"]
    "/k2:a" ["/k3:a"] [Mut.create "/k1", Mut.set "/k1" "{}"] [] ["/k1"] "/k2" "a"
    "{}" "{}" (by decide) (by decide) (by decide) (by decide) (by decide) (by decide)
  exact h.trans (by decide)

/-! ## C8: status success condition -/

theorem leadsWith_iff : ∀ n h : List Char, leadsWith n h = true ↔ ∃ t, h = n ++ t := by
  intro n
  induction n with
  | nil =>
    intro h
    simp [leadsWith]
  | cons a as ih =>
    intro h
    cases h with
    | nil =>
      simp [leadsWith]
    | cons b bs =>
      simp only [leadsWith, Bool.and_eq_true, beq_iff_eq, ih, List.cons_append,
        List.cons.injEq]
      constructor
      · rintro ⟨hab, t, ht⟩
        exact ⟨t, hab.symm, ht⟩
      · rintro ⟨t, hab, ht⟩
        exact ⟨hab.symm, t, ht⟩

theorem subChars_iff : ∀ h n : List Char,
    subChars n h = true ↔ ∃ pre post, h = pre ++ n ++ post := by
  intro h
  induction h with
  | nil =>
    intro n
    simp only [subChars, List.isEmpty_iff]
    constructor
    · rintro rfl
      exact ⟨[], [], rfl⟩
    · rintro ⟨pre, post, hp⟩
      rcases List.append_eq_nil.mp hp.symm with ⟨h1, h2⟩
      rcases List.append_eq_nil.mp h1 with ⟨_, h3⟩
      exact h3
  | cons b t ih =>
    intro n
    simp only [subChars, Bool.or_eq_true, leadsWith_iff, ih]
    constructor
    · rintro (⟨post, hp⟩ | ⟨pre, post, hp⟩)
      · exact ⟨[], post, by simp [hp]⟩
      · exact ⟨b :: pre, post, by simp [hp]⟩
    · rintro ⟨pre, post, hp⟩
      cases pre with
      | nil =>
        left
        exact ⟨post, by simpa using hp⟩
      | cons c pre' =>
        right
        simp only [List.cons_append, List.cons.injEq] at hp
        exact ⟨pre', post, hp.2⟩

/-- Token fixture: the characters of the expected acknowledgment `imok`. -/
def imokChars : List Char := "imok".data

/-- C8 (counterexample): the claim that the status operation succeeds if and
only if the health-probe response is exactly the expected token is false: the
code tests `'imok' in ret` — substring containment — so the response
`"ximok"`, which is not the token, still prints `OK` and exits 0. -/
theorem status_substring_accepts_nonexact_cex :
    cmd_status "ximok" = ("OK", 0, .plainExit) ∧ "ximok" ≠ "imok" := by
  decide

/-- C8 (amended): the status operation succeeds (prints `OK`, exits 0) if
and only if the response CONTAINS the expected acknowledgment token as a
substring; every other response gets the warning message and exit code 1 —
a reported warning, not a crash. -/
theorem status_succeeds_iff_contains_token (ret : String) :
    (cmd_status ret = ("OK", 0, .plainExit) ↔
      ∃ pre post, ret.data = pre ++ imokChars ++ post) ∧
    ((¬ ∃ pre post, ret.data = pre ++ imokChars ++ post) →
      cmd_status ret = ("WARN - Server replied : " ++ ret, 1, .plainExit)) := by
  have hiff := subChars_iff ret.data imokChars
  constructor
  · constructor
    · intro hok
      apply hiff.mp
      by_contra hfalse
      have hf : containsSub "imok" ret = false := by
        unfold containsSub
        cases hsc : subChars imokChars ret.data
        · exact hsc
        · exact absurd hsc hfalse
      unfold cmd_status at hok
      rw [hf] at hok
      simp only [Bool.false_eq_true, if_false] at hok
      have := congrArg (fun t : String × Nat × ExitVia => t.2.1) hok
      simp at this
    · intro hex
      have ht : containsSub "imok" ret = true := hiff.mpr hex
      unfold cmd_status
      rw [ht]
      simp
  · intro hnex
    have hf : containsSub "imok" ret = false := by
      unfold containsSub
      cases hsc : subChars imokChars ret.data
      · exact hsc
      · exact absurd (hiff.mp hsc) hnex
    unfold cmd_status
    rw [hf]
    simp

/-- Witness for C8's amended theorem at the response `"ruok?"`: it does not
contain the token, so the warning branch runs with exit code 1. -/
theorem status_succeeds_iff_contains_token_witness :
    cmd_status "ruok?" = ("WARN - Server replied : " ++ "ruok?", 1, .plainExit) := by
  apply (status_succeeds_iff_contains_token "ruok?").2
  intro hex
  have : subChars imokChars ("ruok?").data = true :=
    (subChars_iff ("ruok?").data imokChars).mpr hex
  exact absurd this (by decide)

/-! ## C7: connection release on exit paths -/

/-- C7 (code evaluated at the failing input): on the `status` action the
process exits through bare `exit(0)`/`exit(1)` calls inside `cmd_status` —
never reaching the `tear_down(0)` at the end of `main` — so the connection
release routine is not invoked on either status exit path, although the
release routine itself is idempotent (invoking it with no connection ever
established performs no stop/close and does not fail). -/
theorem status_exit_bypasses_tear_down :
    cmd_status "imok" = ("OK", 0, ExitVia.plainExit) ∧
    cmd_status "dead" = ("WARN - Server replied : dead", 1, ExitVia.plainExit) ∧
    ExitVia.plainExit ≠ ExitVia.tearDown ∧
    tear_down false false = false ∧
    tear_down false true = false ∧
    tear_down true false = false := by
  decide

/-! ## C10: `cmd_set --input` writes to the wrong attribute -/

/-- C10: when the single-node `set` action runs with `--input` and without
`--values`, the canonicalized payload read from the input file is stored in
the `value` attribute, which `create_and_set` never reads — the payload it
passes to `set_value` is `args.values`, i.e. `None` — so the file's content
is never written to the node.  (Last conjunct: the payload `create_and_set`
uses is independent of the `value` attribute, whatever it holds.) -/
theorem cmd_set_input_payload_never_written
    (fs jsonCanon : String → Option String) (cwd : String) (args : Args)
    (inp z content canon : String)
    (hin : args.input = some inp)
    (hv : args.values = none)
    (hz : args.znode = some z)
    (hrd : fs (abspath cwd inp) = some content)
    (hjs : jsonCanon (rstrip content) = some canon) :
    cmd_set fs jsonCanon cwd args =
      .setCall { args with value := some canon } z none ∧
    (∀ (a : Args) (v : Option String),
      create_and_set_payload { a with value := v } = create_and_set_payload a) := by
  constructor
  · unfold cmd_set
    rw [if_neg]
    · simp only [hz, hin, hrd, hjs, create_and_set_payload, hv]
    · rintro ⟨h1, _⟩
      rw [hin] at h1
      exact Option.some_ne_none inp h1
  · intro a v
    rfl

/-- File-system fixture for C10: the input file `f` (its directory `/d`)
holds valid JSON. -/
def fsC10 : String → Option String := fun p =>
  if p = "/d/f" then some "{}" else none

/-- Argument fixture for C10: `--znode /n --input f`, no `--values`. -/
def argsC10 : Args := ⟨some "/n", none, some "f", none⟩

/-- Witness for C10: the set call receives payload `none` while the file's
canonicalized content sits in the unread `value` attribute. -/
theorem cmd_set_input_payload_never_written_witness :
    cmd_set fsC10 jsonC "/d" argsC10 =
      .setCall ⟨some "/n", none, some "f", some "{}"⟩ "/n" none ∧
    create_and_set_payload ⟨some "/n", none, some "f", some "{}"⟩ = none :=
  ⟨((cmd_set_input_payload_never_written fsC10 jsonC "/d" argsC10 "f" "/n" "{}" "{}"
      (by decide) (by decide) (by decide) (by decide) (by decide)).1).trans (by decide),
   by decide⟩

end ZkCli
